import Mathlib

set_option maxRecDepth 100000

/-!
Verification of the `embedded-midi` streaming MIDI parser.

The development shallowly embeds the two Rust source files:

* `src/parser.rs` — the full byte-by-byte parser state machine
  (namespace `ParserRs` below);
* `src/midi.rs` — the value-type wrappers `Note`, `Channel`, `Velocity`
  and an older parser handling only Note-On / Note-Off
  (namespace `MidiRs` below).

Machine bytes (`u8`) are modelled as `Nat`; where a fact needs the 8-bit
range it carries an explicit `b < 256` hypothesis.  `parse_byte` mutates
`self.state` and returns `Option<MidiEvent>` in Rust; here it is a pure
function returning the new state paired with the optional event.
-/

namespace EmbeddedMidi

/-- midi.rs `Note`: a newtype wrapper around a raw `u8`. -/
structure Note where
  val : Nat
deriving DecidableEq

/-- midi.rs `impl From<u8> for Note`. -/
def Note.fromU8 (note : Nat) : Note := ⟨note⟩

/-- midi.rs `impl Into<u8> for Note`. -/
def Note.intoU8 (n : Note) : Nat := n.val

/-- midi.rs `Channel`: a newtype wrapper around a raw `u8`. -/
structure Channel where
  val : Nat
deriving DecidableEq

/-- midi.rs `impl From<u8> for Channel`. -/
def Channel.fromU8 (channel : Nat) : Channel := ⟨channel⟩

/-- midi.rs `impl Into<u8> for Channel`. -/
def Channel.intoU8 (c : Channel) : Nat := c.val

/-- midi.rs `Velocity`: a newtype wrapper around a raw `u8`. -/
structure Velocity where
  val : Nat
deriving DecidableEq

/-- midi.rs `impl From<u8> for Velocity`. -/
def Velocity.fromU8 (velocity : Nat) : Velocity := ⟨velocity⟩

/-- midi.rs `impl Into<u8> for Velocity`. -/
def Velocity.intoU8 (v : Velocity) : Nat := v.val

/-- Modelled from the spec: the `PitchBendValue` conversion from the two
data bytes is not visible in the inspected source (`parser.rs` builds it
from `(byte1, byte).into()` but the target type's code is outside `src/`).
The spec defines the 14-bit value as: first data byte = least-significant
7 bits, second data byte = most-significant 7 bits. -/
def pitchBendValue (byte1 byte2 : Nat) : Nat := (byte2 <<< 7) ||| byte1

namespace ParserRs

/-- parser.rs `MidiEvent` (declared as `crate::MidiEvent`, used by the
parser; its own declaration is outside `src/`).  The `channel`, `note`
and `velocity` fields go through the midi.rs wrapper types; the
remaining 7-bit fields (`control`, `value`, `program`) are carried as
the raw data byte, their wrapper types being identity wrappers per the
spec.  `PitchBend` carries the two raw data bytes handed to the
`PitchBendValue` conversion, in order. -/
inductive MidiEvent where
  | NoteOn (channel : Channel) (note : Note) (velocity : Velocity)
  | NoteOff (channel : Channel) (note : Note) (velocity : Velocity)
  | ControlChange (channel : Channel) (control : Nat) (value : Nat)
  | ProgramChange (channel : Channel) (program : Nat)
  | ChannelPressure (channel : Channel) (value : Nat)
  | PitchBend (channel : Channel) (byte1 : Nat) (byte2 : Nat)
deriving DecidableEq

/-- parser.rs `MidiParserState`. -/
inductive MidiParserState where
  | Idle
  | NoteOnRecvd (channel : Nat)
  | NoteOnNoteRecvd (channel : Nat) (note : Nat)
  | NoteOffRecvd (channel : Nat)
  | NoteOffNoteRecvd (channel : Nat) (note : Nat)
  | ControlChangeRecvd (channel : Nat)
  | ControlChangeControlRecvd (channel : Nat) (control : Nat)
  | ProgramChangeRecvd (channel : Nat)
  | ChannelPressureRecvd (channel : Nat)
  | PitchBendRecvd (channel : Nat)
  | PitchBendFirstByteRecvd (channel : Nat) (byte1 : Nat)
deriving DecidableEq

/-- parser.rs `fn is_status_byte(byte: u8) -> bool { byte & 0x80 == 0x80 }`. -/
def is_status_byte (byte : Nat) : Bool := byte &&& 0x80 == 0x80

/-- parser.rs `fn split_message_and_channel(byte: u8) -> (u8, u8)`. -/
def split_message_and_channel (byte : Nat) : Nat × Nat :=
  (byte &&& 0xf0, byte &&& 0x0f)

/-- parser.rs `MidiParser::new()`: the parser starts in `Idle`. -/
def MidiParser.new : MidiParserState := MidiParserState.Idle

/-- parser.rs `MidiParser::parse_byte`.  The Rust method mutates
`self.state` and returns `Option<MidiEvent>`; this embedding returns the
new state paired with the optional event.  Branches that do not assign
`self.state` return the (matched) input state unchanged; the final
wildcard of the data-byte match covers exactly the `Idle` state. -/
def parse_byte (state : MidiParserState) (byte : Nat) :
    MidiParserState × Option MidiEvent :=
  if is_status_byte byte then
    match (split_message_and_channel byte).1, (split_message_and_channel byte).2 with
    | 0x80, channel => (MidiParserState.NoteOffRecvd channel, none)
    | 0x90, channel => (MidiParserState.NoteOnRecvd channel, none)
    | 0xB0, channel => (MidiParserState.ControlChangeRecvd channel, none)
    | 0xC0, channel => (MidiParserState.ProgramChangeRecvd channel, none)
    | 0xD0, channel => (MidiParserState.ChannelPressureRecvd channel, none)
    | 0xE0, channel => (MidiParserState.PitchBendRecvd channel, none)
    | _, _ => (state, none)
  else
    match state with
    | MidiParserState.NoteOnRecvd channel =>
        (MidiParserState.NoteOnNoteRecvd channel byte, none)
    | MidiParserState.NoteOnNoteRecvd channel note =>
        (MidiParserState.NoteOnRecvd channel,
         some (MidiEvent.NoteOn (Channel.fromU8 channel) (Note.fromU8 note)
           (Velocity.fromU8 byte)))
    | MidiParserState.NoteOffRecvd channel =>
        (MidiParserState.NoteOffNoteRecvd channel byte, none)
    | MidiParserState.NoteOffNoteRecvd channel note =>
        (MidiParserState.NoteOffRecvd channel,
         some (MidiEvent.NoteOff (Channel.fromU8 channel) (Note.fromU8 note)
           (Velocity.fromU8 byte)))
    | MidiParserState.ControlChangeRecvd channel =>
        (MidiParserState.ControlChangeControlRecvd channel byte, none)
    | MidiParserState.ControlChangeControlRecvd channel control =>
        (MidiParserState.ControlChangeRecvd channel,
         some (MidiEvent.ControlChange (Channel.fromU8 channel) control byte))
    | MidiParserState.ProgramChangeRecvd channel =>
        (MidiParserState.ProgramChangeRecvd channel,
         some (MidiEvent.ProgramChange (Channel.fromU8 channel) byte))
    | MidiParserState.ChannelPressureRecvd channel =>
        (MidiParserState.ChannelPressureRecvd channel,
         some (MidiEvent.ChannelPressure (Channel.fromU8 channel) byte))
    | MidiParserState.PitchBendRecvd channel =>
        (MidiParserState.PitchBendFirstByteRecvd channel byte, none)
    | MidiParserState.PitchBendFirstByteRecvd channel byte1 =>
        (MidiParserState.PitchBendRecvd channel,
         some (MidiEvent.PitchBend (Channel.fromU8 channel) byte1 byte))
    | MidiParserState.Idle => (MidiParserState.Idle, none)

/-- Feed a list of bytes through the parser, collecting the emitted
events in order (the semantics of the test helper `assert_result`,
which `filter_map`s `parse_byte` over the byte slice). -/
def parse_bytes (state : MidiParserState) :
    List Nat → MidiParserState × List MidiEvent
  | [] => (state, [])
  | byte :: rest =>
    match parse_byte state byte with
    | (next, none) => parse_bytes next rest
    | (next, some ev) =>
      let r := parse_bytes next rest
      (r.1, ev :: r.2)

/-- The awaiting-first-data-byte state of the family and channel of an
event: the state a completed message of that family restarts in under
running status. -/
def eventStart : MidiEvent → MidiParserState
  | MidiEvent.NoteOn c _ _ => MidiParserState.NoteOnRecvd c.val
  | MidiEvent.NoteOff c _ _ => MidiParserState.NoteOffRecvd c.val
  | MidiEvent.ControlChange c _ _ => MidiParserState.ControlChangeRecvd c.val
  | MidiEvent.ProgramChange c _ => MidiParserState.ProgramChangeRecvd c.val
  | MidiEvent.ChannelPressure c _ => MidiParserState.ChannelPressureRecvd c.val
  | MidiEvent.PitchBend c _ _ => MidiParserState.PitchBendRecvd c.val

/-- The awaiting-first-data-byte state a recognized status-byte family
nibble maps to, `none` for an unrecognized family. -/
def recognizedTarget (message channel : Nat) : Option MidiParserState :=
  match message with
  | 0x80 => some (MidiParserState.NoteOffRecvd channel)
  | 0x90 => some (MidiParserState.NoteOnRecvd channel)
  | 0xB0 => some (MidiParserState.ControlChangeRecvd channel)
  | 0xC0 => some (MidiParserState.ProgramChangeRecvd channel)
  | 0xD0 => some (MidiParserState.ChannelPressureRecvd channel)
  | 0xE0 => some (MidiParserState.PitchBendRecvd channel)
  | _ => none

/-- 7-bit range check on every field of an emitted event: channel in
0–15, all data fields in 0–127. -/
def eventOk : MidiEvent → Bool
  | MidiEvent.NoteOn c n v =>
      decide (c.val ≤ 15) && decide (n.val ≤ 127) && decide (v.val ≤ 127)
  | MidiEvent.NoteOff c n v =>
      decide (c.val ≤ 15) && decide (n.val ≤ 127) && decide (v.val ≤ 127)
  | MidiEvent.ControlChange c ct v =>
      decide (c.val ≤ 15) && decide (ct ≤ 127) && decide (v ≤ 127)
  | MidiEvent.ProgramChange c p => decide (c.val ≤ 15) && decide (p ≤ 127)
  | MidiEvent.ChannelPressure c v => decide (c.val ≤ 15) && decide (v ≤ 127)
  | MidiEvent.PitchBend c b1 b2 =>
      decide (c.val ≤ 15) && decide (b1 ≤ 127) && decide (b2 ≤ 127)

/-- Range invariant on parser states: stored channels are in 0–15 and
stored partial data bytes in 0–127. -/
def stateOk : MidiParserState → Bool
  | MidiParserState.Idle => true
  | MidiParserState.NoteOnRecvd c => decide (c ≤ 15)
  | MidiParserState.NoteOnNoteRecvd c n => decide (c ≤ 15) && decide (n ≤ 127)
  | MidiParserState.NoteOffRecvd c => decide (c ≤ 15)
  | MidiParserState.NoteOffNoteRecvd c n => decide (c ≤ 15) && decide (n ≤ 127)
  | MidiParserState.ControlChangeRecvd c => decide (c ≤ 15)
  | MidiParserState.ControlChangeControlRecvd c ct =>
      decide (c ≤ 15) && decide (ct ≤ 127)
  | MidiParserState.ProgramChangeRecvd c => decide (c ≤ 15)
  | MidiParserState.ChannelPressureRecvd c => decide (c ≤ 15)
  | MidiParserState.PitchBendRecvd c => decide (c ≤ 15)
  | MidiParserState.PitchBendFirstByteRecvd c b1 =>
      decide (c ≤ 15) && decide (b1 ≤ 127)

end ParserRs

namespace MidiRs

/-- midi.rs `MidiEvent`: only Note-On and Note-Off. -/
inductive MidiEvent where
  | NoteOn (channel : Channel) (note : Note) (velocity : Velocity)
  | NoteOff (channel : Channel) (note : Note) (velocity : Velocity)
deriving DecidableEq

/-- midi.rs `MidiEvent::note_on`. -/
def MidiEvent.note_on (channel : Channel) (note : Note) (velocity : Velocity) :
    MidiEvent :=
  MidiEvent.NoteOn channel note velocity

/-- midi.rs `MidiEvent::note_off`. -/
def MidiEvent.note_off (channel : Channel) (note : Note) (velocity : Velocity) :
    MidiEvent :=
  MidiEvent.NoteOff channel note velocity

/-- midi.rs `MidiParserState`. -/
inductive MidiParserState where
  | Empty
  | NoteOnRecvd (channel : Nat)
  | NoteOnNoteRecvd (channel : Nat) (note : Nat)
  | NoteOffRecvd (channel : Nat)
  | NoteOffNoteRecvd (channel : Nat) (note : Nat)
deriving DecidableEq

/-- midi.rs `MidiParser::new()`: the parser starts in `Empty`. -/
def MidiParser.new : MidiParserState := MidiParserState.Empty

/-- midi.rs `MidiParser::parse_byte`.  In `Empty` it inspects the high
nibble directly (no top-bit check); the `NoteOnNoteRecvd` branch emits
without assigning `self.state`, so that state is kept; the
`NoteOffNoteRecvd` branch resets to `Empty`. -/
def parse_byte (state : MidiParserState) (byte : Nat) :
    MidiParserState × Option MidiEvent :=
  match state with
  | MidiParserState.Empty =>
    match byte &&& 0xf0, byte &&& 0x0f with
    | 0x90, channel => (MidiParserState.NoteOnRecvd channel, none)
    | 0x80, channel => (MidiParserState.NoteOffRecvd channel, none)
    | _, _ => (MidiParserState.Empty, none)
  | MidiParserState.NoteOnRecvd channel =>
      (MidiParserState.NoteOnNoteRecvd channel byte, none)
  | MidiParserState.NoteOnNoteRecvd channel note =>
      (MidiParserState.NoteOnNoteRecvd channel note,
       some (MidiEvent.note_on (Channel.fromU8 channel) (Note.fromU8 note)
         (Velocity.fromU8 byte)))
  | MidiParserState.NoteOffRecvd channel =>
      (MidiParserState.NoteOffNoteRecvd channel byte, none)
  | MidiParserState.NoteOffNoteRecvd channel note =>
      (MidiParserState.Empty,
       some (MidiEvent.note_off (Channel.fromU8 channel) (Note.fromU8 note)
         (Velocity.fromU8 byte)))

/-- Feed a list of bytes through the midi.rs parser, collecting emitted
events in order. -/
def parse_bytes (state : MidiParserState) :
    List Nat → MidiParserState × List MidiEvent
  | [] => (state, [])
  | byte :: rest =>
    match parse_byte state byte with
    | (next, none) => parse_bytes next rest
    | (next, some ev) =>
      let r := parse_bytes next rest
      (r.1, ev :: r.2)

end MidiRs

open ParserRs

/-! ### Helper lemmas (shared) -/

/-- The top bit of a byte survives masking the high nibble first. -/
theorem land80_via_f0 (b : Nat) : b &&& 0x80 = (b &&& 0xf0) &&& 0x80 := by
  have h2 : (0xf0 : Nat) &&& 0x80 = 0x80 := by decide
  rw [Nat.land_assoc, h2]

/-- A byte whose high nibble has the top bit set is a status byte. -/
theorem status_of_message (b m : Nat) (hm : b &&& 0xf0 = m)
    (h : m &&& 0x80 = 0x80) : is_status_byte b = true := by
  unfold is_status_byte
  rw [land80_via_f0, hm, h]
  rfl

/-- An 8-bit value that is not a status byte is below 0x80. -/
theorem data_byte_lt : ∀ b < 256, is_status_byte b = false → b < 128 := by
  decide

/-! ### Claims -/

/-- C7: for all 256 byte values, `is_status_byte b` holds iff the top
bit `b &&& 0x80` is nonzero, i.e. exactly when `0x80 ≤ b`. -/
theorem claim7_byte_classification :
    ∀ b : Nat, b < 256 →
      ((is_status_byte b = true ↔ b &&& 0x80 ≠ 0)
        ∧ (is_status_byte b = true ↔ 0x80 ≤ b)) := by
  decide

/-- Witness for C7 at the concrete byte 0x92. -/
theorem claim7_witness :
    (is_status_byte 0x92 = true ↔ 0x92 &&& 0x80 ≠ 0)
      ∧ (is_status_byte 0x92 = true ↔ 0x80 ≤ 0x92) :=
  claim7_byte_classification 0x92 (by decide)

/-- C8: constructing a `Note`, `Channel` or `Velocity` from any raw `u8`
and converting back returns the value unchanged: the conversions are
total identities with no validation. -/
theorem claim8_value_roundtrip :
    ∀ n : Nat,
      (Note.fromU8 n).intoU8 = n
        ∧ (Channel.fromU8 n).intoU8 = n
        ∧ (Velocity.fromU8 n).intoU8 = n :=
  fun _ => ⟨rfl, rfl, rfl⟩

/-- C6: a data byte (top bit clear) fed to a freshly constructed parser
returns `none` and leaves the state unchanged at `Idle`; no error is
surfaced. -/
theorem claim6_data_byte_before_status :
    ∀ b : Nat, is_status_byte b = false →
      parse_byte MidiParser.new b = (MidiParser.new, none) := by
  intro b h
  simp [parse_byte, MidiParser.new, h]

/-- Witness for C6 at the concrete data byte 0x40. -/
theorem claim6_witness :
    parse_byte MidiParser.new 0x40 = (MidiParser.new, none) :=
  claim6_data_byte_before_status 0x40 (by decide)

/-- C5: feeding `[0xE8, 0x14, 0x56]` to a fresh parser yields `none` on
the first two bytes and exactly one PitchBend event on channel 8 on the
third, carrying the data-byte pair `(0x14, 0x56)`; the 14-bit value
combines that pair with the first byte as the least-significant 7 bits
and the second as the most-significant 7 bits. -/
theorem claim5_pitch_bend :
    parse_byte MidiParser.new 0xE8
        = (MidiParserState.PitchBendRecvd 8, none)
      ∧ parse_byte (MidiParserState.PitchBendRecvd 8) 0x14
        = (MidiParserState.PitchBendFirstByteRecvd 8 0x14, none)
      ∧ parse_byte (MidiParserState.PitchBendFirstByteRecvd 8 0x14) 0x56
        = (MidiParserState.PitchBendRecvd 8,
           some (MidiEvent.PitchBend ⟨8⟩ 0x14 0x56))
      ∧ parse_bytes MidiParser.new [0xE8, 0x14, 0x56]
        = (MidiParserState.PitchBendRecvd 8,
           [MidiEvent.PitchBend ⟨8⟩ 0x14 0x56])
      ∧ pitchBendValue 0x14 0x56 = 0x14 + 0x56 * 128
      ∧ pitchBendValue 0x14 0x56 % 128 = 0x14
      ∧ pitchBendValue 0x14 0x56 / 128 = 0x56 := by
  decide

/-- C1: whenever `parse_byte` emits an event, the state afterwards is
the emitting family's awaiting-first-data-byte state on the same
channel (running status); concretely, `[0x92, 0x76, 0x34, 0x33, 0x65]`
yields exactly two NoteOn events on channel 2 and `[0xC3, 0x67, 0x01]`
exactly two ProgramChange events on channel 3. -/
theorem claim1_running_status :
    (∀ (s : MidiParserState) (b : Nat) (s' : MidiParserState) (e : MidiEvent),
        parse_byte s b = (s', some e) → s' = eventStart e)
      ∧ parse_bytes MidiParser.new [0x92, 0x76, 0x34, 0x33, 0x65]
        = (MidiParserState.NoteOnRecvd 2,
           [MidiEvent.NoteOn ⟨2⟩ ⟨0x76⟩ ⟨0x34⟩,
            MidiEvent.NoteOn ⟨2⟩ ⟨0x33⟩ ⟨0x65⟩])
      ∧ parse_bytes MidiParser.new [0xC3, 0x67, 0x01]
        = (MidiParserState.ProgramChangeRecvd 3,
           [MidiEvent.ProgramChange ⟨3⟩ 0x67,
            MidiEvent.ProgramChange ⟨3⟩ 0x01]) := by
  refine ⟨?_, by decide, by decide⟩
  intro s b s' e h
  unfold parse_byte at h
  by_cases hb : is_status_byte b
  · rw [hb] at h
    simp only [if_true] at h
    split at h <;> simp_all
  · simp only [hb, Bool.false_eq_true, if_false] at h
    cases s <;>
      simp_all [eventStart, Channel.fromU8, Note.fromU8, Velocity.fromU8]
    all_goals
      obtain ⟨h1, h2⟩ := h
    all_goals
      subst h1
    all_goals
      subst h2
    all_goals
      rfl

/-- Witness for C1: emitting the NoteOn completing
`parse_byte (NoteOnNoteRecvd 2 0x76) 0x34` lands in `NoteOnRecvd 2`. -/
theorem claim1_witness :
    MidiParserState.NoteOnRecvd 2
      = eventStart (MidiEvent.NoteOn ⟨2⟩ ⟨0x76⟩ ⟨0x34⟩) :=
  claim1_running_status.1 (MidiParserState.NoteOnNoteRecvd 2 0x76) 0x34
    (MidiParserState.NoteOnRecvd 2) (MidiEvent.NoteOn ⟨2⟩ ⟨0x76⟩ ⟨0x34⟩)
    (by decide)

/-- C2: in every state, a recognized status byte returns `none` and
moves to the new family's awaiting-first-data-byte state with channel
the byte's low nibble, discarding any in-progress message; concretely
`[0x92, 0x1B, 0x82, 0x76, 0x34]` yields exactly one event,
NoteOff on channel 2 with note 0x76 and velocity 0x34. -/
theorem claim2_status_override :
    (∀ (s : MidiParserState) (b : Nat) (st : MidiParserState),
        recognizedTarget (b &&& 0xf0) (b &&& 0x0f) = some st →
        parse_byte s b = (st, none))
      ∧ parse_bytes MidiParser.new [0x92, 0x1B, 0x82, 0x76, 0x34]
        = (MidiParserState.NoteOffRecvd 2,
           [MidiEvent.NoteOff ⟨2⟩ ⟨0x76⟩ ⟨0x34⟩]) := by
  refine ⟨?_, by decide⟩
  intro s b st h
  unfold recognizedTarget at h
  split at h
  all_goals try exact Option.noConfusion h
  all_goals
    rename_i hm
  all_goals
    obtain rfl := Option.some.inj h
  all_goals
    have hs : is_status_byte b = true := status_of_message b _ hm (by decide)
  all_goals
    unfold parse_byte
  all_goals
    rw [hs]
  all_goals
    simp [split_message_and_channel, hm]

/-- Witness for C2: the status byte 0x82 interrupting an in-progress
NoteOn resets the parser to `NoteOffRecvd 2` and emits nothing. -/
theorem claim2_witness :
    parse_byte (MidiParserState.NoteOnNoteRecvd 2 0x1B) 0x82
      = (MidiParserState.NoteOffRecvd 2, none) :=
  claim2_status_override.1 (MidiParserState.NoteOnNoteRecvd 2 0x1B) 0x82
    (MidiParserState.NoteOffRecvd 2) (by decide)

/-- C3: a status byte whose high nibble is not a recognized family
(in particular every byte in 0xF0–0xFF) returns `none` and leaves the
parser state exactly unchanged. -/
theorem claim3_unrecognized_passthrough :
    (∀ (s : MidiParserState) (b : Nat),
        is_status_byte b = true →
        recognizedTarget (b &&& 0xf0) (b &&& 0x0f) = none →
        parse_byte s b = (s, none))
      ∧ (∀ b : Nat, b < 256 → 0xF0 ≤ b →
          is_status_byte b = true
            ∧ recognizedTarget (b &&& 0xf0) (b &&& 0x0f) = none) := by
  refine ⟨?_, by decide⟩
  intro s b hs h
  unfold parse_byte
  rw [hs]
  simp only [if_true]
  split <;> simp_all [split_message_and_channel, recognizedTarget]

/-- Witness for C3: the System Real-Time byte 0xF8 passes through an
in-progress NoteOn without touching the state. -/
theorem claim3_witness :
    parse_byte (MidiParserState.NoteOnRecvd 3) 0xF8
      = (MidiParserState.NoteOnRecvd 3, none) :=
  claim3_unrecognized_passthrough.1 (MidiParserState.NoteOnRecvd 3) 0xF8
    (by decide) (by decide)

/-- C9: no transition of `parse_byte` targets `Idle`: once the parser
has left `Idle`, it never re-enters it on any byte, so running-status
context is only ever replaced, never cleared. -/
theorem claim9_never_reenters_idle :
    ∀ (s : MidiParserState) (b : Nat), s ≠ MidiParserState.Idle →
      (parse_byte s b).1 ≠ MidiParserState.Idle := by
  intro s b hs
  unfold parse_byte
  by_cases hb : is_status_byte b
  · rw [hb]
    simp only [if_true]
    split <;> simp_all
  · simp only [hb, Bool.false_eq_true, if_false]
    cases s <;> simp_all

/-- Witness for C9: the unrecognized status byte 0xF7 does not send
`ProgramChangeRecvd 5` back to `Idle`. -/
theorem claim9_witness :
    (parse_byte (MidiParserState.ProgramChangeRecvd 5) 0xF7).1
      ≠ MidiParserState.Idle :=
  claim9_never_reenters_idle (MidiParserState.ProgramChangeRecvd 5) 0xF7
    (by decide)

/-- One step preserves the state range invariant, and any emitted event
satisfies the range check. -/
theorem parse_byte_ok (s : MidiParserState) (b : Nat) (hb : b < 256)
    (hs : stateOk s = true) :
    stateOk (parse_byte s b).1 = true
      ∧ ∀ e, (parse_byte s b).2 = some e → eventOk e = true := by
  by_cases hst : is_status_byte b
  · unfold parse_byte
    rw [hst]
    simp only [if_true]
    split <;>
      exact ⟨by first
              | exact hs
              | (simp [stateOk]; exact Nat.and_le_right),
             fun e he => absurd he (by simp)⟩
  · rw [Bool.not_eq_true] at hst
    have hd : b < 128 := data_byte_lt b hb hst
    unfold parse_byte
    rw [hst]
    simp only [Bool.false_eq_true, if_false]
    cases s <;>
      simp_all [stateOk, eventOk, Channel.fromU8, Note.fromU8,
        Velocity.fromU8] <;>
      omega

/-- Folding `parse_byte` over any in-range byte list preserves the state
invariant and only emits range-correct events. -/
theorem parse_bytes_ok (bytes : List Nat) :
    ∀ s : MidiParserState, (∀ b ∈ bytes, b < 256) → stateOk s = true →
      stateOk (parse_bytes s bytes).1 = true
        ∧ ∀ e ∈ (parse_bytes s bytes).2, eventOk e = true := by
  induction bytes with
  | nil =>
    intro s _ hs
    exact ⟨hs, by simp [parse_bytes]⟩
  | cons b rest ih =>
    intro s hb hs
    have hstep := parse_byte_ok s b (hb b (by simp)) hs
    rcases hpb : parse_byte s b with ⟨next, oe⟩
    rw [hpb] at hstep
    have hrest : ∀ x ∈ rest, x < 256 := fun x hx => hb x (by simp [hx])
    cases oe with
    | none =>
      have hr := ih next hrest hstep.1
      simpa [parse_bytes, hpb] using hr
    | some ev =>
      have hr := ih next hrest hstep.1
      have hev : eventOk ev = true := hstep.2 ev rfl
      simp only [parse_bytes, hpb]
      refine ⟨hr.1, ?_⟩
      intro e he
      rcases List.mem_cons.mp he with rfl | hmem
      · exact hev
      · exact hr.2 e hmem

/-- C4: every event a fresh parser ever emits over any 8-bit byte
sequence has its channel in 0–15 and all other fields in 0–127. -/
theorem claim4_emitted_ranges :
    ∀ bytes : List Nat, (∀ b ∈ bytes, b < 256) →
      ∀ e ∈ (parse_bytes MidiParser.new bytes).2, eventOk e = true := by
  intro bytes hb
  exact (parse_bytes_ok bytes MidiParser.new hb (by decide)).2

/-- Witness for C4 on the concrete stream `[0x92, 0x76, 0x34]`. -/
theorem claim4_witness :
    eventOk (MidiEvent.NoteOn ⟨2⟩ ⟨0x76⟩ ⟨0x34⟩) = true :=
  claim4_emitted_ranges [0x92, 0x76, 0x34] (by decide)
    (MidiEvent.NoteOn ⟨2⟩ ⟨0x76⟩ ⟨0x34⟩) (by decide)

/-- Bit facts for a Note-On / Note-Off status byte built as high nibble
plus channel. -/
theorem status_nibbles :
    ∀ c < 16,
      ((0x90 + c) &&& 0xf0 = 0x90) ∧ ((0x90 + c) &&& 0x0f = c)
        ∧ is_status_byte (0x90 + c) = true
        ∧ ((0x80 + c) &&& 0xf0 = 0x80) ∧ ((0x80 + c) &&& 0x0f = c)
        ∧ is_status_byte (0x80 + c) = true := by
  decide

/-- Data bytes are not status bytes. -/
theorem data_not_status : ∀ d < 128, is_status_byte d = false := by
  decide

/-- C10: on a single well-formed 3-byte Note-On or Note-Off message from
a fresh parser, the midi.rs parser and the parser.rs parser both emit
nothing on the first two bytes and the identical event on the third. -/
theorem claim10_parsers_agree :
    ∀ c d1 d2 : Nat, c < 16 → d1 < 128 → d2 < 128 →
      ((MidiRs.parse_bytes MidiRs.MidiParser.new [0x90 + c, d1]).2 = []
        ∧ (MidiRs.parse_bytes MidiRs.MidiParser.new [0x90 + c, d1, d2]).2
          = [MidiRs.MidiEvent.NoteOn ⟨c⟩ ⟨d1⟩ ⟨d2⟩]
        ∧ (parse_bytes MidiParser.new [0x90 + c, d1]).2 = []
        ∧ (parse_bytes MidiParser.new [0x90 + c, d1, d2]).2
          = [MidiEvent.NoteOn ⟨c⟩ ⟨d1⟩ ⟨d2⟩])
      ∧ ((MidiRs.parse_bytes MidiRs.MidiParser.new [0x80 + c, d1]).2 = []
        ∧ (MidiRs.parse_bytes MidiRs.MidiParser.new [0x80 + c, d1, d2]).2
          = [MidiRs.MidiEvent.NoteOff ⟨c⟩ ⟨d1⟩ ⟨d2⟩]
        ∧ (parse_bytes MidiParser.new [0x80 + c, d1]).2 = []
        ∧ (parse_bytes MidiParser.new [0x80 + c, d1, d2]).2
          = [MidiEvent.NoteOff ⟨c⟩ ⟨d1⟩ ⟨d2⟩]) := by
  intro c d1 d2 hc h1 h2
  obtain ⟨hn90, hc90, hs90, hn80, hc80, hs80⟩ := status_nibbles c hc
  have hd1 := data_not_status d1 h1
  have hd2 := data_not_status d2 h2
  refine ⟨⟨?_, ?_, ?_, ?_⟩, ?_, ?_, ?_, ?_⟩ <;>
    simp [MidiRs.parse_bytes, parse_bytes, MidiRs.parse_byte, parse_byte,
      MidiRs.MidiParser.new, MidiParser.new, split_message_and_channel,
      MidiRs.MidiEvent.note_on, MidiRs.MidiEvent.note_off,
      hn90, hc90, hs90, hn80, hc80, hs80, hd1, hd2,
      Channel.fromU8, Note.fromU8, Velocity.fromU8]

/-- Witness for C10 at the concrete message `[0x92, 0x76, 0x34]`. -/
theorem claim10_witness :
    (MidiRs.parse_bytes MidiRs.MidiParser.new [0x90 + 2, 0x76, 0x34]).2
      = [MidiRs.MidiEvent.NoteOn ⟨2⟩ ⟨0x76⟩ ⟨0x34⟩]
    ∧ (parse_bytes MidiParser.new [0x90 + 2, 0x76, 0x34]).2
      = [MidiEvent.NoteOn ⟨2⟩ ⟨0x76⟩ ⟨0x34⟩] := by
  have h := claim10_parsers_agree 2 0x76 0x34 (by decide) (by decide)
    (by decide)
  exact ⟨h.1.2.1, h.1.2.2.2⟩

end EmbeddedMidi
